import Mathlib

/-!
# File-system router: verification of the segment grammar and route builder

Shallow embedding of the repository's `FileRouter` module (segment grammar
parser `extractSegments`, route extraction `extractRoute`, the dispatch-pattern
translation `segmentsToPath`, and the route builder `fromFiles` with its module
validation), together with theorems settling the specification claims.

Strings are processed through explicit `List Char` recursions mirroring the
JavaScript string operations (`split`, `substring`, regular-expression tests),
so that every definition evaluates by kernel reduction.
-/

namespace FileRouter

/-- JS `\w` character class: ASCII letters, digits and underscore. -/
def isWordChar (c : Char) : Bool := c.isAlphanum || c == '_'

/-- Full-string match of `/^\w+$/`: non-empty, all word characters. -/
def isWordString (s : List Char) : Bool := !s.isEmpty && s.all isWordChar

/-- JS `String.prototype.split(sep)` semantics on character lists:
`"".split` is `[""]`, consecutive separators produce empty chunks. -/
def splitOnChar (sep : Char) : List Char → List (List Char)
  | [] => [[]]
  | c :: cs =>
    match splitOnChar sep cs with
    | [] => [[]]
    | h :: t => if c = sep then [] :: h :: t else (c :: h) :: t

/-- The inverse of `splitOnChar`: rejoin chunks with the separator between them. -/
def joinChunks (sep : Char) : List (List Char) → List Char
  | [] => []
  | [c] => c
  | c :: rest => c ++ sep :: joinChunks sep rest

/-- First half of the JS trim `path.replace(/(^\/)|(\/$)/g, "")`:
remove one leading slash if present. -/
def dropLeadingSlash : List Char → List Char
  | '/' :: rest => rest
  | cs => cs

/-- Second half of the trim: remove one trailing slash if present. -/
def dropTrailingSlash (cs : List Char) : List Char :=
  if cs.getLast? = some ('/') then cs.dropLast else cs

/-- `Extension` from the source: the four recognized handle-file extensions. -/
inductive Extension where
  | ts
  | tsx
  | js
  | jsx
deriving DecidableEq, Repr

/-- Extension as the string appearing in a file name. -/
def extString : Extension → String
  | .ts => "ts"
  | .tsx => "tsx"
  | .js => "js"
  | .jsx => "jsx"

/-- Models `["ts", "js", "tsx", "jsx"].includes(ext)` followed by the cast
`ext as Extension`: the extension value a recognized string denotes. -/
def parseExtension (ext : List Char) : Option Extension :=
  if ext = ("ts").data then some Extension.ts
  else if ext = ("js").data then some Extension.js
  else if ext = ("tsx").data then some Extension.tsx
  else if ext = ("jsx").data then some Extension.jsx
  else none

/-- `Segment` from the source: the union of the four `PathSegment` variants and
the two `HandleSegment` variants.  Payloads are as in the source: `RestParam`
stores the entire bracketed token, the other parameters store the bare name. -/
inductive Segment where
  | Literal (text : String)
  | DynamicParam (text : String)
  | OptionalParam (text : String)
  | RestParam (text : String)
  | ServerHandle (extension : Extension)
  | PageHandle (extension : Extension)
deriving DecidableEq, Repr

/-- A handle segment (`ServerHandle` or `PageHandle`). -/
def Segment.isHandle : Segment → Bool
  | .ServerHandle _ => true
  | .PageHandle _ => true
  | _ => false

/-- Discriminates `handleSegment.type === "ServerHandle"`. -/
def Segment.isServer : Segment → Bool
  | .ServerHandle _ => true
  | _ => false

/-- Discriminates `handleSegment.type === "PageHandle"`. -/
def Segment.isPage : Segment → Bool
  | .PageHandle _ => true
  | _ => false

/-- `s.startsWith(p)` for a single-character p. -/
def startsWithChar (c : Char) (s : List Char) : Bool := s.head? = some c

/-- `s.startsWith("[[")`. -/
def startsWithTwoOpen : List Char → Bool
  | '[' :: '[' :: _ => true
  | _ => false

/-- `s.endsWith("]]")`. -/
def endsWithTwoClose (s : List Char) : Bool :=
  match s.reverse with
  | ']' :: ']' :: _ => true
  | _ => false

/-- `name.startsWith("...")`. -/
def startsWithDots : List Char → Bool
  | '.' :: '.' :: '.' :: _ => true
  | _ => false

/-- `s.substring(2, s.length - 2)`: the inner name of a `[[name]]` token. -/
def optionalInner (s : List Char) : List Char := ((s.drop 2).dropLast).dropLast

/-- Match of `\w*\]$`: word characters up to a final closing bracket. -/
def wordsThenClose : List Char → Bool
  | [] => false
  | [c] => c = ']'
  | c :: rest => isWordChar c && wordsThenClose rest

/-- Full-string match of `/^\[\.{3}\w+\]$/` (rest-parameter token): an opening
bracket, three dots, at least one word character, a closing bracket. -/
def restRegexMatch (s : List Char) : Bool :=
  match s with
  | '[' :: '.' :: '.' :: '.' :: c :: rest => isWordChar c && wordsThenClose (c :: rest)
  | _ => false

/-- `s.substring(4, s.length - 1)`: the name inside a `[...name]` token. -/
def restInner (s : List Char) : List Char := (s.drop 4).dropLast

/-- Full-string match of `/^\[\w+\]$/` (dynamic-parameter token): an opening
bracket, at least one word character, a closing bracket. -/
def dynRegexMatch (s : List Char) : Bool :=
  match s with
  | '[' :: c :: rest => isWordChar c && wordsThenClose (c :: rest)
  | _ => false

/-- `s.substring(1, s.length - 1)`: the name inside a `[name]` token. -/
def dynInner (s : List Char) : List Char := (s.drop 1).dropLast

/-- The per-component classifier from `extractSegments` (the body of the `map`):
the pattern checks in source order, `none` for a lexically invalid component.
The source re-checks non-emptiness of the rest/dynamic names after the regex
match; the regex already forces a non-empty name, and when either test fails
control falls to the later branches, which cannot match a bracketed token, so
the re-check is conjoined into the regex test here. -/
def classifySegment (s : List Char) : Option Segment :=
  if startsWithChar ('+') s then
    match splitOnChar ('.') s with
    | [name, ext] =>
      match parseExtension ext with
      | none => none
      | some e =>
        if name = ("+server").data then some (Segment.ServerHandle e)
        else if name = ("+page").data then some (Segment.PageHandle e)
        else none
    | _ => none
  else if startsWithTwoOpen s && endsWithTwoClose s && decide (s.length ≥ 5)
      && !(optionalInner s).isEmpty && !startsWithDots (optionalInner s) then
    some (Segment.OptionalParam ⟨optionalInner s⟩)
  else if restRegexMatch s then
    some (Segment.RestParam ⟨s⟩)
  else if dynRegexMatch s then
    some (Segment.DynamicParam ⟨dynInner s⟩)
  else if isWordString s then
    some (Segment.Literal ⟨s⟩)
  else
    none

/-- The characters of a handle component `name.ext`. -/
def handleChars (name : String) (ext : Extension) : List Char :=
  name.data ++ '.' :: (extString ext).data

/-- The characters of an optional-rest component `[[...x]]` for an inner
text `x`. -/
def optRestForm (x : List Char) : List Char :=
  '[' :: '[' :: '.' :: '.' :: '.' :: (x ++ [']', ']'])

/-- The trimmed path of `extractSegments`:
`path.replace(/(^\/)|(\/$)/g, "")`. -/
def trimmedPath (path : String) : List Char :=
  dropTrailingSlash (dropLeadingSlash path.data)

/-- The component strings `extractSegments` classifies: split the trimmed path
on slashes and drop empty components. -/
def componentStrings (path : String) : List (List Char) :=
  (splitOnChar ('/') (trimmedPath path)).filter (fun s => s ≠ [])

/-- The source maps the classifier over all components and then returns `null`
when any classification is `null`; this recursion produces the identical
result (all-or-nothing, no partial sequence). -/
def classifyAll : List (List Char) → Option (List Segment)
  | [] => some []
  | s :: rest =>
    match classifySegment s, classifyAll rest with
    | some seg, some segs => some (seg :: segs)
    | _, _ => none

/-- `extractSegments` from the source. -/
def extractSegments (path : String) : Option (List Segment) :=
  if trimmedPath path = [] then some []
  else
    let segmentStrings := componentStrings path
    if segmentStrings.length = 0 then some []
    else classifyAll segmentStrings

/-- Observable outcomes of `extractRoute`.  The source reads
`segs.at(-1)` *before* its `!segs` null check, so a rejected parse does not
reach the `null` return: it throws
`TypeError: Cannot read properties of null (reading 'at')`, modelled as
`typeError`. -/
inductive RouteResult where
  | route (segs : List Segment)
  | notRoute
  | typeError
deriving DecidableEq, Repr

/-- `extractRoute` from the source: require a non-empty segment sequence whose
last element is a handle segment; otherwise `null` (`notRoute`).  When
`extractSegments` returns `null`, the dereference `segs.at(-1)` throws. -/
def extractRoute (path : String) : RouteResult :=
  match extractSegments path with
  | none => RouteResult.typeError
  | some segs =>
    let lastIsHandle :=
      match segs.getLast? with
      | some seg => seg.isHandle
      | none => false
    if segs.isEmpty || !lastIsHandle then RouteResult.notRoute
    else RouteResult.route segs

-- Concrete checks against the repository's own extractSegments test vectors.

example : extractSegments ("") = some [] := by decide
example : extractSegments ("/") = some [] := by decide
example : extractSegments ("/users/[userId]") =
    some [Segment.Literal ("users"), Segment.DynamicParam ("userId")] := by decide
example : extractSegments ("/items/[[itemId]]") =
    some [Segment.Literal ("items"), Segment.OptionalParam ("itemId")] := by decide
example : extractSegments ("/files/[...filePath]") =
    some [Segment.Literal ("files"), Segment.RestParam ("[...filePath]")] := by decide
example : extractSegments ("/about/+page.tsx") =
    some [Segment.Literal ("about"), Segment.PageHandle Extension.tsx] := by decide
example : extractSegments ("/users///posts//latest/") =
    some [Segment.Literal ("users"), Segment.Literal ("posts"),
      Segment.Literal ("latest")] := by decide
example : extractSegments ("/users/[invalid[id]]") = none := by decide
example : extractSegments ("/[[...invalid]]") = none := by decide
example : extractSegments ("/[...]]") = none := by decide
example : extractSegments ("/[[]]") = none := by decide
example : extractSegments ("/api/+server") = none := by decide
example : extractSegments ("/api/+page.foo.bar") = none := by decide
example : extractSegments ("/api/+page.xyz") = none := by decide
example : extractSegments ("/api/+other.ts") = none := by decide
example : extractRoute ("/users/posts") = RouteResult.notRoute := by decide
example : extractRoute ("") = RouteResult.notRoute := by decide
example : extractRoute ("/api/data/+server.ts") =
    RouteResult.route [Segment.Literal ("api"), Segment.Literal ("data"),
      Segment.ServerHandle Extension.ts] := by decide
example : extractRoute ("/api/+invalid") = RouteResult.typeError := by decide

/-! ## Dispatch-pattern translation (`segmentsToPath`) -/

/-- One step of the single-pass global replace `path.replace(/\/\//g, "/")`:
left-to-right, non-overlapping, the replacement is not rescanned. -/
def collapseDoubleSlashes : List Char → List Char
  | '/' :: '/' :: rest => '/' :: collapseDoubleSlashes rest
  | c :: rest => c :: collapseDoubleSlashes rest
  | [] => []

/-- `Array.prototype.join("/")` on the rendered components, at the character
level. -/
def joinSlash : List String → List Char
  | [] => []
  | [s] => s.data
  | s :: rest => s.data ++ '/' :: joinSlash rest

/-- Does the character list contain two consecutive slashes? -/
def hasDoubleSlash : List Char → Bool
  | [] => false
  | [_] => false
  | c₁ :: c₂ :: rest => (c₁ = '/' && c₂ = '/') || hasDoubleSlash (c₂ :: rest)

/-- The `switch` inside `segmentsToPath`.  The source annotates the argument as
`PathSegment[]`, but `fromFiles` passes `routeSegments.slice(0, -1)` under a
cast, so at runtime a handle segment can reach the switch; it matches no case,
the callback yields `undefined`, and `Array.join` renders `undefined` as the
empty string. -/
def renderPatternComponent : Segment → String
  | .Literal t => t
  | .DynamicParam t => ":" ++ t
  | .OptionalParam t => ":" ++ t ++ "?"
  | .RestParam t => ":" ++ (⟨restInner t.data⟩ : String) ++ "*"
  | .ServerHandle _ => ""
  | .PageHandle _ => ""

/-- `segmentsToPath` from the source: the characters of
`"/" + components.join("/")` are exactly a slash followed by the joined
components, then the global double-slash replace runs over them. -/
def segmentsToPath (segments : List Segment) : String :=
  if segments.length = 0 then "/"
  else
    let path : List Char := '/' :: joinSlash (segments.map renderPatternComponent)
    ⟨collapseDoubleSlashes path⟩

example : segmentsToPath [] = "/" := by decide
example : segmentsToPath [Segment.Literal ("users"), Segment.DynamicParam ("userId")] =
    "/users/:userId" := by decide
example : segmentsToPath [Segment.Literal ("files"), Segment.RestParam ("[...filePath]")] =
    "/files/:filePath*" := by decide
example : segmentsToPath [Segment.Literal ("items"), Segment.OptionalParam ("itemId")] =
    "/items/:itemId?" := by decide

/-! ## Runtime values, modules, and the router -/

/-- The runtime values a module export can take, as far as the builder's
duck-typed inspection distinguishes them.  A callable export is modelled by its
behavior when invoked with no arguments (`funcRet v` returns `v`, `funcThrow m`
throws an error whose rendered text is `m`, matching the
`e instanceof Error ? e.message : String(e)` in the catch block).  `obj b`
is any other object, tracking only whether its `pipe` property is callable. -/
inductive JsValue where
  | undefined
  | nullv
  | boolv (b : Bool)
  | numv (n : Int)
  | strv (s : String)
  | funcRet (v : JsValue)
  | funcThrow (message : String)
  | obj (pipeCallable : Bool)
deriving DecidableEq, Repr

/-- JS truthiness, as used by `!module.default` and `handlerCandidate && ...`.
The numeric model uses `Int`, which has no NaN; NaN is not reachable from the
checks the builder performs. -/
def truthy : JsValue → Bool
  | .undefined => false
  | .nullv => false
  | .boolv b => b
  | .numv n => n != 0
  | .strv s => s ≠ ""
  | .funcRet _ => true
  | .funcThrow _ => true
  | .obj _ => true

/-- `typeof v === "function"`. -/
def isCallable : JsValue → Bool
  | .funcRet _ => true
  | .funcThrow _ => true
  | _ => false

/-- `typeof v.pipe === "function"` for the values on which the builder tests
it (plain functions pass the `typeof v === "function"` disjunct first, and no
other primitive has a callable `pipe`). -/
def hasCallablePipe : JsValue → Bool
  | .obj p => p
  | _ => false

/-- `typeof v === "string"`. -/
def isStringValue : JsValue → Bool
  | .strv _ => true
  | _ => false

/-- The duck-typed handler check
`v && (typeof v === "function" || (v && typeof v.pipe === "function"))`,
used both for method exports and for the default export. -/
def isValidHandler (v : JsValue) : Bool :=
  truthy v && (isCallable v || (truthy v && hasCallablePipe v))

/-- A loaded module: its exported bindings.  `Object.keys` preserves this list
of names; reading a missing binding yields `undefined`. -/
structure JsModule where
  exports : List (String × JsValue)
deriving DecidableEq, Repr

/-- `module[name]`: the bound value, or `undefined` when absent. -/
def JsModule.get (m : JsModule) (name : String) : JsValue :=
  match m.exports.find? (fun p => p.1 = name) with
  | some p => p.2
  | none => JsValue.undefined

/-- The seven HTTP methods the builder inspects, in source order. -/
inductive Method where
  | GET
  | POST
  | PUT
  | DELETE
  | PATCH
  | OPTIONS
  | HEAD
deriving DecidableEq, Repr

/-- The export name bound to a method. -/
def methodName : Method → String
  | .GET => "GET"
  | .POST => "POST"
  | .PUT => "PUT"
  | .DELETE => "DELETE"
  | .PATCH => "PATCH"
  | .OPTIONS => "OPTIONS"
  | .HEAD => "HEAD"

/-- `const httpMethods = ["GET", "POST", "PUT", "DELETE", "PATCH", "OPTIONS", "HEAD"]`. -/
def httpMethods : List Method :=
  [Method.GET, Method.POST, Method.PUT, Method.DELETE, Method.PATCH,
   Method.OPTIONS, Method.HEAD]

/-- Models `HttpServerResponse.text(content)` of the external capability:
a success response carrying the string as a plain-text body. -/
structure HttpResponse where
  status : Nat
  contentType : String
  body : String
deriving DecidableEq, Repr

/-- `HttpServerResponse.text`. -/
def textResponse (content : String) : HttpResponse :=
  { status := 200, contentType := "text/plain", body := content }

/-- A handler registered into the router: either a module-exported value passed
through as-is (server handles), or the page response
`Effect.succeed(HttpServerResponse.text content)`. -/
inductive Handler where
  | js (v : JsValue)
  | page (resp : HttpResponse)
deriving DecidableEq, Repr

/-- One registration into the router: `HttpRouter.get/post/...` produce a
method-specific entry, `HttpRouter.all` a catch-all entry. -/
inductive RouteEntry where
  | forMethod (m : Method) (pattern : String) (h : Handler)
  | catchAll (pattern : String) (h : Handler)
deriving DecidableEq, Repr

/-- The router being built: the ordered list of registrations. -/
abbrev Router := List RouteEntry

/-- Outcome of the dynamic `import(absoluteFilePath)` capability: the module's
exported bindings, or the rejection value (carried verbatim). -/
inductive LoadResult where
  | loaded (m : JsModule)
  | failed (cause : JsValue)
deriving DecidableEq, Repr

/-- The build-time failures of `fromFiles`.  `InvalidModuleError` and
`ImportError` mirror the source classes; `Defect` models an unhandled JS
exception thrown inside the `Effect.gen` body (Effect's `Die` channel), which
is how the `TypeError` from `extractRoute` on a rejected parse surfaces. -/
inductive BuildError where
  | InvalidModuleError (message : String)
  | ImportError (error : JsValue) (filePath : String)
  | Defect (message : String)
deriving DecidableEq, Repr

/-- Models `NPath.join(absoluteScanDir, relativePath)` for an absolute first
argument without a trailing separator and a plain relative second argument
(the shapes `fromFiles` produces). -/
def joinPath (dir rel : String) : String := dir ++ "/" ++ rel

/-- The body of the method loop in the `ServerHandle` branch: register a
method-specific entry when the export is a valid handler, and record that one
was found. -/
def registerStep (m : JsModule) (httpPath : String) (acc : Router × Bool)
    (meth : Method) : Router × Bool :=
  let handlerCandidate := m.get (methodName meth)
  if isValidHandler handlerCandidate then
    (acc.1 ++ [RouteEntry.forMethod meth httpPath (Handler.js handlerCandidate)], true)
  else acc

/-- The `for (const method of httpMethods)` loop: fold `registerStep` over the
seven methods, starting from the incoming router and
`foundMethodSpecificHandler = false`. -/
def registerMethodHandlers (m : JsModule) (httpPath : String) (router : Router) :
    Router × Bool :=
  httpMethods.foldl (registerStep m httpPath) (router, false)

/-- The methods whose exports pass the duck-typed handler check, in the order
the loop visits them. -/
def validMethods (m : JsModule) : List Method :=
  httpMethods.filter (fun meth => isValidHandler (m.get (methodName meth)))

/-- The method-specific entries a `ServerHandle` module contributes. -/
def methodEntries (m : JsModule) (httpPath : String) : List RouteEntry :=
  (validMethods m).map (fun meth =>
    RouteEntry.forMethod meth httpPath (Handler.js (m.get (methodName meth))))

/-- The `ServerHandle` validation branch of `fromFiles`. -/
def handleServerModule (m : JsModule) (httpPath absoluteFilePath : String)
    (router : Router) : Except BuildError Router :=
  let defaultExport := m.get ("default")
  let hasPotentiallyValidDefaultExport := isValidHandler defaultExport
  let result := registerMethodHandlers m httpPath router
  if !result.2 then
    if hasPotentiallyValidDefaultExport then
      Except.ok (result.1 ++ [RouteEntry.catchAll httpPath (Handler.js defaultExport)])
    else
      Except.error (BuildError.InvalidModuleError
        ("No valid route handlers (method-specific functions or default export) found in "
          ++ absoluteFilePath))
  else Except.ok result.1

/-- The `PageHandle` validation branch of `fromFiles` (after the
missing-default checks, which the caller performs): branch on
`typeof module.default`, invoke a callable default with no arguments, and on
success register the GET-only page entry.  The "did not return a string"
failure is raised through `Effect.fail`, which does not resume the generator,
so the surrounding `try`/`catch` does not intercept it. -/
def handlePageModule (m : JsModule) (httpPath absoluteFilePath : String)
    (router : Router) : Except BuildError Router :=
  match m.get ("default") with
  | JsValue.funcThrow msg =>
    Except.error (BuildError.InvalidModuleError
      ("Error executing default export function in " ++ absoluteFilePath
        ++ " for +page.tsx: " ++ msg))
  | JsValue.funcRet v =>
    match v with
    | JsValue.strv content =>
      Except.ok (router ++ [RouteEntry.forMethod Method.GET httpPath
        (Handler.page (textResponse content))])
    | _ =>
      Except.error (BuildError.InvalidModuleError
        ("Default export function in " ++ absoluteFilePath
          ++ " for +page.tsx did not return a string."))
  | JsValue.strv content =>
    Except.ok (router ++ [RouteEntry.forMethod Method.GET httpPath
      (Handler.page (textResponse content))])
  | _ =>
    Except.error (BuildError.InvalidModuleError
      ("Default export in " ++ absoluteFilePath
        ++ " for +page.tsx is not a string or a function returning a string."))

/-- One iteration of the `for (const relativePath of files)` loop of
`fromFiles`.  The broad check at the top of the loop body only acts through
its `PageHandle`/missing-default sub-branch, which raises the same error as
the unconditional specific check right after it, so the two collapse into the
single missing-default test here. -/
def processFile (absoluteScanDir : String) (load : String → LoadResult)
    (router : Router) (relativePath : String) : Except BuildError Router :=
  match extractRoute relativePath with
  | RouteResult.typeError =>
    Except.error (BuildError.Defect
      ("TypeError: Cannot read properties of null (reading at)"))
  | RouteResult.notRoute => Except.ok router
  | RouteResult.route routeSegments =>
    match routeSegments.getLast? with
    | none => Except.ok router
    | some handleSegment =>
      let pathSegments := routeSegments.dropLast
      let httpPath := segmentsToPath pathSegments
      let absoluteFilePath := joinPath absoluteScanDir relativePath
      match load absoluteFilePath with
      | LoadResult.failed cause =>
        Except.error (BuildError.ImportError cause absoluteFilePath)
      | LoadResult.loaded module =>
        if handleSegment.isPage && !truthy (module.get ("default")) then
          Except.error (BuildError.InvalidModuleError
            ("Missing default export in " ++ absoluteFilePath ++ " for +page.tsx"))
        else if handleSegment.isServer then
          handleServerModule module httpPath absoluteFilePath router
        else
          handlePageModule module httpPath absoluteFilePath router

/-- `fromFiles`, over the three external capabilities: `absoluteScanDir` is the
resolved root, `files` the recursive directory listing (paths relative to the
root), `load` the dynamic import keyed by absolute file path.  Files are
processed sequentially; the first failure aborts the build. -/
def fromFiles (absoluteScanDir : String) (load : String → LoadResult)
    (files : List String) : Except BuildError Router :=
  files.foldlM (processFile absoluteScanDir load) ([] : Router)

/-! ## Request dispatch (the router capability) -/

/-- Is the pattern component a `:name?` capture? -/
def isOptionalPatternComponent (s : List Char) : Bool :=
  startsWithChar (':') s && s.getLast? = some ('?')

/-- Is the pattern component a `:name*` capture? -/
def isRestPatternComponent (s : List Char) : Bool :=
  startsWithChar (':') s && s.getLast? = some ('*')

/-- Is the pattern component a `:name` capture (required, exactly one)? -/
def isDynPatternComponent (s : List Char) : Bool :=
  startsWithChar (':') s && !(s.getLast? = some ('?')) && !(s.getLast? = some ('*'))

/-- Modelled from the spec: pattern matching of the external router capability
(spec sections 3, 4.3 and 6, not part of the repository): a literal component
matches itself, `:name` matches exactly one component, `:name?` zero or one,
`:name*` one or more trailing components (greedily, hence terminal). -/
def matchComponents : List (List Char) → List (List Char) → Bool
  | [], [] => true
  | [], _ :: _ => false
  | pc :: prest, comps =>
    if isOptionalPatternComponent pc then
      matchComponents prest comps ||
        (match comps with
         | c :: crest => !c.isEmpty && matchComponents prest crest
         | [] => false)
    else if isRestPatternComponent pc then
      (match comps with
       | [] => false
       | _ :: _ => prest.isEmpty)
    else
      match comps with
      | [] => false
      | c :: crest =>
        (if isDynPatternComponent pc then !c.isEmpty else c = pc) &&
          matchComponents prest crest

/-- The slash-separated components of a pattern or request path. -/
def pathComponents (s : String) : List (List Char) :=
  (splitOnChar ('/') s.data).filter (fun c => c ≠ [])

/-- Modelled from the spec: does a registered entry serve the given request
(spec section 6's RouterAssembler capability; a method-specific entry requires
the method to agree, a catch-all entry matches every method)? -/
def entryMatches (meth : Method) (reqPath : String) (e : RouteEntry) : Bool :=
  match e with
  | RouteEntry.forMethod m pat _ =>
    m = meth && matchComponents (pathComponents pat) (pathComponents reqPath)
  | RouteEntry.catchAll pat _ =>
    matchComponents (pathComponents pat) (pathComponents reqPath)

/-- The handler carried by an entry. -/
def RouteEntry.handler : RouteEntry → Handler
  | RouteEntry.forMethod _ _ h => h
  | RouteEntry.catchAll _ h => h

/-- Modelled from the spec: request dispatch of the external router capability
(spec section 7): the first matching entry's handler, or the distinct
"no route" outcome (`none`, the `RouteNotFound` of the capability). -/
def dispatch (router : Router) (meth : Method) (reqPath : String) : Option Handler :=
  (router.find? (entryMatches meth reqPath)).map RouteEntry.handler

/-! ## Concrete modules and loaders used by the witnesses -/

/-- A route prefix exercising all four path-segment kinds, used to witness the
pattern-translation claim. -/
def demoPrefix : List Segment :=
  [Segment.Literal ("users"), Segment.DynamicParam ("userId"),
   Segment.OptionalParam ("itemId"), Segment.RestParam ("[...filePath]")]

/-- A loaded module with a single valid GET export, used to witness C1. -/
def serverModGET : JsModule :=
  { exports := [("GET", JsValue.funcRet JsValue.undefined)] }

/-- A loader serving `serverModGET` at `/routes/api/+server.ts`. -/
def loadServerGET : String → LoadResult := fun p =>
  if p = "/routes/api/+server.ts" then LoadResult.loaded serverModGET
  else LoadResult.failed JsValue.undefined

/-- A `ServerHandle` module with an invalid `GET` export (a non-empty string:
truthy, but neither callable nor `pipe`-bearing) and a valid default export. -/
def badMethodModule : JsModule :=
  { exports := [("GET", JsValue.strv ("not an effect")), ("default", JsValue.obj true)] }

/-- A loader serving `badMethodModule` at `/routes/+server.ts`. -/
def loadBadMethod : String → LoadResult := fun p =>
  if p = "/routes/+server.ts" then LoadResult.loaded badMethodModule
  else LoadResult.failed JsValue.undefined

/-- The module of the repository's "Invalid Method Export Type" test: `GET` is
an invalid export, `POST` and `default` are valid handlers. -/
def badMethodPostModule : JsModule :=
  { exports := [("GET", JsValue.strv ("not an effect")),
                ("POST", JsValue.obj true),
                ("default", JsValue.obj true)] }

/-- A loader serving `badMethodPostModule` at
`/routes/api/badmethod/+server.ts`. -/
def loadBadMethodPost : String → LoadResult := fun p =>
  if p = "/routes/api/badmethod/+server.ts" then LoadResult.loaded badMethodPostModule
  else LoadResult.failed JsValue.undefined

/-- A `PageHandle` module whose default export is the empty string. -/
def emptyPageModule : JsModule := { exports := [("default", JsValue.strv (""))] }

/-- A loader serving `emptyPageModule` at `/routes/+page.ts`. -/
def loadEmptyPage : String → LoadResult := fun p =>
  if p = "/routes/+page.ts" then LoadResult.loaded emptyPageModule
  else LoadResult.failed JsValue.undefined

/-- The module of the repository's "Basic +page.tsx" test. -/
def helloPageModule : JsModule :=
  { exports := [("default", JsValue.strv ("Hello Root"))] }

/-- A loader serving `helloPageModule` at `/routes/+page.tsx`. -/
def loadHelloPage : String → LoadResult := fun p =>
  if p = "/routes/+page.tsx" then LoadResult.loaded helloPageModule
  else LoadResult.failed JsValue.undefined

/-- The module of the repository's "+page.tsx function doesn't return string"
test: the default export is a function returning an object. -/
def badPageModule : JsModule :=
  { exports := [("default", JsValue.funcRet (JsValue.obj false))] }

/-- A loader serving `badPageModule` at `/routes/badtype/+page.tsx`. -/
def loadBadPage : String → LoadResult := fun p =>
  if p = "/routes/badtype/+page.tsx" then LoadResult.loaded badPageModule
  else LoadResult.failed JsValue.undefined

/-- A loader that always fails with a fixed cause value. -/
def loadBroken : String → LoadResult := fun _ =>
  LoadResult.failed (JsValue.strv ("SyntaxError"))

/-! ## Helper lemmas -/

/-- A route result decomposes: the parse succeeded, the sequence is non-empty,
and its last element is a handle segment. -/
theorem extractRoute_route_inv {path : String} {segs : List Segment}
    (h : extractRoute path = RouteResult.route segs) :
    extractSegments path = some segs ∧ segs ≠ [] ∧
      ∃ last, segs.getLast? = some last ∧ last.isHandle = true := by
  unfold extractRoute at h
  cases hseg : extractSegments path with
  | none => rw [hseg] at h; exact absurd h (by simp)
  | some s =>
    rw [hseg] at h
    simp only [] at h
    split at h
    · exact absurd h (by simp)
    · rename_i hcond
      cases h
      simp only [Bool.or_eq_true, not_or, Bool.not_eq_true] at hcond
      refine ⟨rfl, ?_, ?_⟩
      · intro hnil
        subst hnil
        simp at hcond
      · cases hlast : segs.getLast? with
        | none =>
          rw [hlast] at hcond
          simp at hcond
        | some last =>
          rw [hlast] at hcond
          exact ⟨last, rfl, by simpa using hcond.2⟩

/-- All-or-nothing classification: one invalid component makes `classifyAll`
reject. -/
theorem classifyAll_none_of_mem {l : List (List Char)} {x : List Char}
    (hx : x ∈ l) (hf : classifySegment x = none) : classifyAll l = none := by
  induction l with
  | nil => cases hx
  | cons a rest ih =>
    cases hx with
    | head => simp [classifyAll, hf]
    | tail _ hmem =>
      unfold classifyAll
      rw [ih hmem]
      cases classifySegment a <;> rfl

/-- All-or-nothing parsing: a path with a lexically invalid component is
rejected as a whole. -/
theorem extractSegments_none_of_bad_component {path : String} {x : List Char}
    (hx : x ∈ componentStrings path) (hf : classifySegment x = none) :
    extractSegments path = none := by
  unfold extractSegments
  split
  · rename_i htrim
    exfalso
    unfold componentStrings at hx
    rw [htrim] at hx
    simp [splitOnChar] at hx
  · simp only []
    split
    · rename_i hlen
      exfalso
      rw [List.length_eq_zero] at hlen
      rw [hlen] at hx
      cases hx
    · exact classifyAll_none_of_mem hx hf

/-- `foldlM` over `Except` distributes over append: the left prefix runs
first, and its error short-circuits. -/
theorem except_foldlM_append {α β ε : Type} (f : β → α → Except ε β)
    (l₁ l₂ : List α) (b : β) :
    (l₁ ++ l₂).foldlM f b = (l₁.foldlM f b).bind (fun b' => l₂.foldlM f b') := by
  induction l₁ generalizing b with
  | nil => rfl
  | cons a rest ih =>
    have hcons : ∀ (b₀ : β) (l : List α), List.foldlM f b₀ (a :: l) =
        (f b₀ a).bind (fun b' => List.foldlM f b' l) := by
      intro b₀ l
      show (f b₀ a >>= fun b' => List.foldlM f b' l) = _
      cases f b₀ a <;> rfl
    rw [List.cons_append, hcons b (rest ++ l₂), hcons b rest]
    cases f b a with
    | ok b' =>
      show List.foldlM f b' (rest ++ l₂) =
        (List.foldlM f b' rest).bind (fun b'' => List.foldlM f b'' l₂)
      exact ih b'
    | error e => rfl

/-- `foldlM` over `Except` on a cons: run the head, then the tail. -/
theorem except_foldlM_cons {α β ε : Type} (f : β → α → Except ε β) (a : α)
    (l : List α) (b : β) :
    List.foldlM f b (a :: l) = (f b a).bind (fun b' => List.foldlM f b' l) := by
  show (f b a >>= fun b' => List.foldlM f b' l) = _
  cases f b a <;> rfl

/-- The one-char-step equation of `collapseDoubleSlashes` when the head is not
a slash. -/
theorem collapse_cons_of_ne (c : Char) (rest : List Char) (h : c ≠ '/') :
    collapseDoubleSlashes (c :: rest) = c :: collapseDoubleSlashes rest := by
  rw [collapseDoubleSlashes.eq_def]
  split
  · rename_i heq
    cases heq
    exact absurd rfl h
  · rename_i c' rest' heq
    cases heq
    rfl
  · rename_i heq
    cases heq

/-- The one-char-step equation of `collapseDoubleSlashes` on a slash followed
by a non-slash. -/
theorem collapse_slash_cons (c₂ : Char) (rest : List Char) (h : c₂ ≠ '/') :
    collapseDoubleSlashes ('/' :: c₂ :: rest) =
      '/' :: collapseDoubleSlashes (c₂ :: rest) := by
  rw [collapseDoubleSlashes.eq_def]
  split
  · rename_i heq
    cases heq
    exact absurd rfl h
  · rename_i c' rest' heq
    cases heq
    rfl
  · rename_i heq
    cases heq

/-- A single character is never collapsed. -/
theorem collapse_single (c : Char) : collapseDoubleSlashes [c] = [c] := by
  rw [collapseDoubleSlashes.eq_def]
  split
  · rename_i heq
    cases heq
  · rename_i c' rest' heq
    cases heq
    rfl
  · rename_i heq
    cases heq

/-- The global replace is the identity on strings without a double slash. -/
theorem collapse_of_no_double (cs : List Char) (h : hasDoubleSlash cs = false) :
    collapseDoubleSlashes cs = cs := by
  induction cs with
  | nil => rfl
  | cons c rest ih =>
    cases rest with
    | nil => exact collapse_single c
    | cons c₂ rest₂ =>
      have hsplit : (decide (c = '/') && decide (c₂ = '/')) = false ∧
          hasDoubleSlash (c₂ :: rest₂) = false := by
        have : ((decide (c = '/') && decide (c₂ = '/'))
            || hasDoubleSlash (c₂ :: rest₂)) = false := h
        exact ⟨by simpa using (Bool.or_eq_false_iff.mp this).1,
          (Bool.or_eq_false_iff.mp this).2⟩
      by_cases hc : c = '/'
      · subst hc
        have hc₂ : c₂ ≠ '/' := by
          intro hEq
          subst hEq
          simp at hsplit
        rw [collapse_slash_cons c₂ rest₂ hc₂, ih hsplit.2]
      · rw [collapse_cons_of_ne c (c₂ :: rest₂) hc, ih hsplit.2]

/-- Appending after a slash-free block does not create a double slash. -/
theorem hasDoubleSlash_append_of_no_slash (w cs : List Char)
    (hw : ∀ c ∈ w, c ≠ '/') :
    hasDoubleSlash (w ++ cs) = hasDoubleSlash cs := by
  induction w with
  | nil => rfl
  | cons c w' ih =>
    have hc : c ≠ '/' := hw c (List.mem_cons_self c w')
    have hw' : ∀ d ∈ w', d ≠ '/' := fun d hd => hw d (List.mem_cons_of_mem c hd)
    rw [List.cons_append]
    cases hwc : w' ++ cs with
    | nil =>
      have hcs : cs = [] := by
        cases (List.append_eq_nil.mp hwc).2
        rfl
      subst hcs
      rfl
    | cons d tail =>
      have step : hasDoubleSlash (c :: d :: tail) =
          ((decide (c = '/') && decide (d = '/')) || hasDoubleSlash (d :: tail)) := rfl
      rw [step]
      have htail : hasDoubleSlash (d :: tail) = hasDoubleSlash cs := by
        rw [← hwc]
        exact ih hw'
      rw [htail]
      simp [hc]

/-- A slash-free block alone has no double slash. -/
theorem hasDoubleSlash_of_no_slash (w : List Char) (hw : ∀ c ∈ w, c ≠ '/') :
    hasDoubleSlash w = false := by
  have := hasDoubleSlash_append_of_no_slash w [] hw
  simpa using this

/-- A leading slash before the join of non-empty slash-free components never
produces a double slash. -/
theorem slash_join_no_double (comps : List String)
    (h : ∀ s ∈ comps, s.data ≠ [] ∧ ∀ c ∈ s.data, c ≠ '/') :
    hasDoubleSlash ('/' :: joinSlash comps) = false := by
  induction comps with
  | nil => rfl
  | cons s rest ih =>
    obtain ⟨hne, hns⟩ := h s (List.mem_cons_self s rest)
    cases rest with
    | nil =>
      show hasDoubleSlash ('/' :: s.data) = false
      cases hs : s.data with
      | nil => exact absurd hs hne
      | cons c w =>
        have hc : c ≠ '/' := hns c (by rw [hs]; exact List.mem_cons_self c w)
        have hw : ∀ d ∈ w, d ≠ '/' := fun d hd =>
          hns d (by rw [hs]; exact List.mem_cons_of_mem c hd)
        have step : hasDoubleSlash ('/' :: c :: w) =
            ((decide (('/' : Char) = '/') && decide (c = '/'))
              || hasDoubleSlash (c :: w)) := rfl
        rw [step]
        have : hasDoubleSlash (c :: w) = false :=
          hasDoubleSlash_of_no_slash (c :: w) (by
            intro d hd
            cases hd with
            | head => exact hc
            | tail _ h' => exact hw d h')
        simp [hc, this]
    | cons s₂ rest₂ =>
      have hrest : ∀ t ∈ s₂ :: rest₂, t.data ≠ [] ∧ ∀ c ∈ t.data, c ≠ '/' :=
        fun t ht => h t (List.mem_cons_of_mem s ht)
      have ihr := ih hrest
      show hasDoubleSlash ('/' :: (s.data ++ '/' :: joinSlash (s₂ :: rest₂))) = false
      cases hs : s.data with
      | nil => exact absurd hs hne
      | cons c w =>
        have hc : c ≠ '/' := hns c (by rw [hs]; exact List.mem_cons_self c w)
        have hw : ∀ d ∈ c :: w, d ≠ '/' := by
          intro d hd
          apply hns
          rw [hs]
          exact hd
        have step : hasDoubleSlash ('/' :: c :: (w ++ '/' :: joinSlash (s₂ :: rest₂))) =
            ((decide (('/' : Char) = '/') && decide (c = '/'))
              || hasDoubleSlash (c :: (w ++ '/' :: joinSlash (s₂ :: rest₂)))) := rfl
        rw [List.cons_append, step, ← List.cons_append,
          hasDoubleSlash_append_of_no_slash (c :: w) _ hw, ihr]
        simp [hc]

/-- C8: on a route's `PathSegment` prefix — no handle segments, and every
component rendered from it non-empty and slash-free, as the parser guarantees
for route prefixes — the translation is deterministic and order-preserving:
the empty prefix yields `/`, otherwise the result is exactly the leading slash
followed by the rendered components joined with slashes (the double-slash
replace finds nothing to collapse, and the result contains no double slash);
each component renders as the claim states: `Literal(t)` to `t`,
`DynamicParam(n)` to `:n`, `OptionalParam(n)` to `:n?`, and `RestParam(raw)` to
`:name*` with `name` obtained by stripping the `[...` prefix and the trailing
`]` from `raw`. -/
theorem segments_to_path_spec (segments : List Segment)
    (hgood : ∀ seg ∈ segments, seg.isHandle = false ∧
      (renderPatternComponent seg).data ≠ [] ∧
      ∀ c ∈ (renderPatternComponent seg).data, c ≠ '/') :
    (segments = [] → segmentsToPath segments = "/") ∧
    (segments ≠ [] →
      (segmentsToPath segments).data =
        '/' :: joinSlash (segments.map renderPatternComponent) ∧
      hasDoubleSlash (segmentsToPath segments).data = false) ∧
    (∀ t, renderPatternComponent (Segment.Literal t) = t) ∧
    (∀ t, renderPatternComponent (Segment.DynamicParam t) = ":" ++ t) ∧
    (∀ t, renderPatternComponent (Segment.OptionalParam t) = ":" ++ t ++ "?") ∧
    (∀ t, renderPatternComponent (Segment.RestParam t) =
      ":" ++ (⟨restInner t.data⟩ : String) ++ "*") := by
  have hcomps : ∀ s ∈ segments.map renderPatternComponent,
      s.data ≠ [] ∧ ∀ c ∈ s.data, c ≠ '/' := by
    intro s hs
    rw [List.mem_map] at hs
    obtain ⟨seg, hseg, rfl⟩ := hs
    exact ⟨(hgood seg hseg).2.1, (hgood seg hseg).2.2⟩
  have hnd : hasDoubleSlash ('/' :: joinSlash (segments.map renderPatternComponent))
      = false := slash_join_no_double _ hcomps
  refine ⟨?_, ?_, fun t => rfl, fun t => rfl, fun t => rfl, fun t => rfl⟩
  · intro h
    subst h
    rfl
  · intro hne
    have hlen : ¬(segments.length = 0) := by
      simpa [List.length_eq_zero] using hne
    constructor
    · show (segmentsToPath segments).data = _
      unfold segmentsToPath
      rw [if_neg hlen]
      show collapseDoubleSlashes
        ('/' :: joinSlash (segments.map renderPatternComponent)) = _
      rw [collapse_of_no_double _ hnd]
    · unfold segmentsToPath
      rw [if_neg hlen]
      show hasDoubleSlash (collapseDoubleSlashes
        ('/' :: joinSlash (segments.map renderPatternComponent))) = false
      rw [collapse_of_no_double _ hnd]
      exact hnd

/-- Witness for C8 at a prefix exercising all four path-segment kinds. -/
theorem segments_to_path_spec_witness :
    (∀ seg ∈ demoPrefix, seg.isHandle = false ∧
      (renderPatternComponent seg).data ≠ [] ∧
      ∀ c ∈ (renderPatternComponent seg).data, c ≠ '/') ∧
    demoPrefix ≠ [] ∧
    (segmentsToPath demoPrefix).data =
      '/' :: joinSlash (demoPrefix.map renderPatternComponent) ∧
    segmentsToPath demoPrefix = "/users/:userId/:itemId?/:filePath*" :=
  ⟨by decide, by decide,
    ((segments_to_path_spec demoPrefix (by decide)).2.1 (by decide)).1,
    by decide⟩

/-- `splitOnChar` always yields at least one chunk (as JS `split` does). -/
theorem splitOnChar_ne_nil (sep : Char) (s : List Char) :
    splitOnChar sep s ≠ [] := by
  cases s with
  | nil => simp [splitOnChar]
  | cons c cs =>
    show (match splitOnChar sep cs with
      | [] => [[]]
      | h :: t => if c = sep then [] :: h :: t else (c :: h) :: t) ≠ []
    cases splitOnChar sep cs with
    | nil => simp
    | cons h t => by_cases hc : c = sep <;> simp [hc]

/-- Rejoining the chunks of `splitOnChar` with the separator recovers the
original string. -/
theorem joinChunks_splitOnChar (sep : Char) (s : List Char) :
    joinChunks sep (splitOnChar sep s) = s := by
  induction s with
  | nil => rfl
  | cons c cs ih =>
    have hstep : splitOnChar sep (c :: cs) =
        (match splitOnChar sep cs with
         | [] => [[]]
         | h :: t => if c = sep then [] :: h :: t else (c :: h) :: t) := rfl
    cases hsp : splitOnChar sep cs with
    | nil => exact absurd hsp (splitOnChar_ne_nil sep cs)
    | cons h t =>
      rw [hsp] at hstep
      rw [hstep]
      rw [hsp] at ih
      show joinChunks sep (if c = sep then [] :: h :: t else (c :: h) :: t) = c :: cs
      by_cases hc : c = sep
      · rw [if_pos hc]
        show sep :: joinChunks sep (h :: t) = c :: cs
        rw [ih, hc]
      · rw [if_neg hc]
        cases t with
        | nil =>
          show c :: h = c :: cs
          exact congrArg (c :: ·) ih
        | cons t₁ t₂ =>
          show (c :: h) ++ sep :: joinChunks sep (t₁ :: t₂) = c :: cs
          rw [List.cons_append]
          exact congrArg (c :: ·) ih

/-- A recognized extension string determines its `Extension` value. -/
theorem parseExtension_eq_some {ext : List Char} {e : Extension}
    (h : parseExtension ext = some e) : ext = (extString e).data := by
  unfold parseExtension at h
  split_ifs at h with h1 h2 h3 h4
  · injection h with he
    subst he
    exact h1
  · injection h with he
    subst he
    exact h2
  · injection h with he
    subst he
    exact h3
  · injection h with he
    subst he
    exact h4

/-! ## Claim theorems: the segment grammar -/

/-- C6: a component beginning with `+` is classified as a segment if and only
if it is exactly a name and a recognized extension separated by one dot, with
the name exactly `+server` (giving `ServerHandle`) or exactly `+page` (giving
`PageHandle`); and when such a component is rejected, the whole path is
rejected, not just that component. -/
theorem plus_component_classification :
    (∀ (s : List Char) (seg : Segment), startsWithChar ('+') s = true →
      (classifySegment s = some seg ↔
        ∃ ext, (seg = Segment.ServerHandle ext ∧ s = handleChars ("+server") ext) ∨
               (seg = Segment.PageHandle ext ∧ s = handleChars ("+page") ext))) ∧
    (∀ (path : String) (s : List Char), s ∈ componentStrings path →
      startsWithChar ('+') s = true → classifySegment s = none →
      extractSegments path = none) := by
  constructor
  · intro s seg hplus
    constructor
    · intro hcls
      simp only [classifySegment] at hcls
      rw [if_pos hplus] at hcls
      cases hsp : splitOnChar ('.') s with
      | nil =>
        rw [hsp] at hcls
        cases hcls
      | cons name rest =>
        cases rest with
        | nil =>
          rw [hsp] at hcls
          cases hcls
        | cons ext rest₂ =>
          cases rest₂ with
          | cons r₃ t₃ =>
            rw [hsp] at hcls
            cases hcls
          | nil =>
            have hred : (match parseExtension ext with
                | none => (none : Option Segment)
                | some e =>
                  if name = ("+server").data then some (Segment.ServerHandle e)
                  else if name = ("+page").data then some (Segment.PageHandle e)
                  else none) = some seg := by
              rw [hsp] at hcls
              exact hcls
            have hj := joinChunks_splitOnChar ('.') s
            rw [hsp] at hj
            have hs : s = name ++ '.' :: ext := by
              rw [← hj]
              rfl
            cases hpe : parseExtension ext with
            | none =>
              rw [hpe] at hred
              cases hred
            | some e =>
              have hext : ext = (extString e).data := parseExtension_eq_some hpe
              have hred₂ : (if name = ("+server").data then
                    some (Segment.ServerHandle e)
                  else if name = ("+page").data then some (Segment.PageHandle e)
                  else (none : Option Segment)) = some seg := by
                rw [hpe] at hred
                exact hred
              by_cases hname : name = ("+server").data
              · rw [if_pos hname] at hred₂
                injection hred₂ with hseg
                refine ⟨e, Or.inl ⟨hseg.symm, ?_⟩⟩
                rw [hs, hname, hext]
                rfl
              · rw [if_neg hname] at hred₂
                by_cases hname₂ : name = ("+page").data
                · rw [if_pos hname₂] at hred₂
                  injection hred₂ with hseg
                  refine ⟨e, Or.inr ⟨hseg.symm, ?_⟩⟩
                  rw [hs, hname₂, hext]
                  rfl
                · rw [if_neg hname₂] at hred₂
                  cases hred₂
    · rintro ⟨e, hcase | hcase⟩ <;> obtain ⟨hseg, hs⟩ := hcase <;> subst hseg <;>
        rw [hs] <;> cases e <;> decide
  · exact fun path s hmem _ hnone =>
      extractSegments_none_of_bad_component hmem hnone

/-- Witness for C6: `+server.ts` classifies as a `ServerHandle`, and the
repository's own rejected test vector `/api/+other.ts` (unrecognized handle
name) is rejected as a whole path. -/
theorem plus_component_classification_witness :
    startsWithChar ('+') (("+server.ts").data) = true ∧
    classifySegment (("+server.ts").data) = some (Segment.ServerHandle Extension.ts) ∧
    (("+other.ts").data) ∈ componentStrings ("/api/+other.ts") ∧
    extractSegments ("/api/+other.ts") = none :=
  ⟨by decide,
    (plus_component_classification.1 (("+server.ts").data)
      (Segment.ServerHandle Extension.ts) (by decide)).mpr
      ⟨Extension.ts, Or.inl ⟨rfl, by decide⟩⟩,
    by decide,
    plus_component_classification.2 ("/api/+other.ts") (("+other.ts").data)
      (by decide) (by decide) (by decide)⟩

/-- C2: the claim says that on a rejected parse `extractRoute` yields the
"not a route" absence and never fails otherwise.  The code reads
`segs.at(-1)` before its `!segs` null check, so a rejected parse (here the
repository's own test input `/api/+invalid`) throws a `TypeError` instead of
returning `null`; the `!segs` disjunct in the subsequent condition — and the
repository's test expecting `null` — show the claim is the intent and the
dereference a slip. -/
theorem extractRoute_rejected_parse_type_error :
    extractSegments ("/api/+invalid") = none ∧
    extractRoute ("/api/+invalid") = RouteResult.typeError := by decide

/-- C5 counterexample: `extractRoute` checks only the last element, so the
path `+server.ts/+page.ts` yields a route whose first element is a
`ServerHandle` in a non-terminal position, contradicting the claim that no
`HandleSegment` occurs in a non-terminal position of a returned route. -/
theorem route_with_nonterminal_handle :
    extractRoute ("+server.ts/+page.ts") =
      RouteResult.route
        [Segment.ServerHandle Extension.ts, Segment.PageHandle Extension.ts] ∧
    ([Segment.ServerHandle Extension.ts,
      Segment.PageHandle Extension.ts].dropLast.any Segment.isHandle) = true := by
  decide

/-- C5 (amended): every non-absent result of `extractRoute` is a non-empty
segment sequence whose last element is a `HandleSegment`; handle segments in
non-terminal positions are not excluded (only the last element is checked). -/
theorem route_ends_in_handle (path : String) (segs : List Segment)
    (h : extractRoute path = RouteResult.route segs) :
    segs ≠ [] ∧ ∃ last, segs.getLast? = some last ∧ last.isHandle = true :=
  ⟨(extractRoute_route_inv h).2.1, (extractRoute_route_inv h).2.2⟩

/-- Witness for the amended C5 theorem at the concrete path `+page.ts`. -/
theorem route_ends_in_handle_witness :
    extractRoute ("+page.ts") = RouteResult.route [Segment.PageHandle Extension.ts] ∧
    ([Segment.PageHandle Extension.ts] ≠ [] ∧
      ∃ last, [Segment.PageHandle Extension.ts].getLast? = some last ∧
        last.isHandle = true) :=
  ⟨by decide, route_ends_in_handle ("+page.ts") [Segment.PageHandle Extension.ts]
    (by decide)⟩

/-! ## The route builder: bridge lemmas -/

/-- `any` agrees with non-emptiness of `filter`. -/
theorem any_eq_not_isEmpty_filter {α : Type} (p : α → Bool) (l : List α) :
    l.any p = !(l.filter p).isEmpty := by
  induction l with
  | nil => rfl
  | cons a rest ih =>
    by_cases h : p a = true <;> simp [List.filter_cons, h, ih]

/-- The method loop, characterized: it appends one method-specific entry per
valid method export, in method order, and reports whether any was found. -/
theorem registerFold_characterization (ms : List Method) (m : JsModule)
    (httpPath : String) (r : Router) (b : Bool) :
    ms.foldl (registerStep m httpPath) (r, b) =
      (r ++ (ms.filter (fun meth => isValidHandler (m.get (methodName meth)))).map
          (fun meth =>
            RouteEntry.forMethod meth httpPath (Handler.js (m.get (methodName meth)))),
       b || ms.any (fun meth => isValidHandler (m.get (methodName meth)))) := by
  induction ms generalizing r b with
  | nil => simp
  | cons a rest ih =>
    simp only [List.foldl_cons, List.filter_cons, List.any_cons]
    by_cases h : isValidHandler (m.get (methodName a)) = true
    · rw [show registerStep m httpPath (r, b) a =
          (r ++ [RouteEntry.forMethod a httpPath (Handler.js (m.get (methodName a)))],
            true) by simp [registerStep, h]]
      rw [ih]
      simp [h]
    · have h' : isValidHandler (m.get (methodName a)) = false := by simpa using h
      rw [show registerStep m httpPath (r, b) a = (r, b) by simp [registerStep, h']]
      rw [ih]
      simp [h']

/-- `registerMethodHandlers`, characterized through `methodEntries`. -/
theorem registerMethodHandlers_eq (m : JsModule) (httpPath : String)
    (router : Router) :
    registerMethodHandlers m httpPath router =
      (router ++ methodEntries m httpPath, !(validMethods m).isEmpty) := by
  unfold registerMethodHandlers methodEntries validMethods
  rw [registerFold_characterization]
  rw [Bool.false_or, any_eq_not_isEmpty_filter]

/-- Under a route ending in a `ServerHandle`, `processFile` reduces to the
`ServerHandle` validation branch. -/
theorem processFile_eq_handleServer
    (dir rel : String) (load : String → LoadResult) (router : Router)
    (segs : List Segment) (ext : Extension) (m : JsModule)
    (hroute : extractRoute rel = RouteResult.route segs)
    (hlast : segs.getLast? = some (Segment.ServerHandle ext))
    (hload : load (joinPath dir rel) = LoadResult.loaded m) :
    processFile dir load router rel =
      handleServerModule m (segmentsToPath segs.dropLast) (joinPath dir rel) router := by
  unfold processFile
  rw [hroute]
  simp only [hlast, hload]
  rfl

/-- Under a route ending in a `PageHandle` with a truthy default export,
`processFile` reduces to the `PageHandle` validation branch. -/
theorem processFile_eq_handlePage
    (dir rel : String) (load : String → LoadResult) (router : Router)
    (segs : List Segment) (ext : Extension) (m : JsModule)
    (hroute : extractRoute rel = RouteResult.route segs)
    (hlast : segs.getLast? = some (Segment.PageHandle ext))
    (hload : load (joinPath dir rel) = LoadResult.loaded m)
    (hdef : truthy (m.get ("default")) = true) :
    processFile dir load router rel =
      handlePageModule m (segmentsToPath segs.dropLast) (joinPath dir rel) router := by
  unfold processFile
  rw [hroute]
  simp only [hlast, hload, hdef, Segment.isPage, Segment.isServer, Bool.not_true,
    Bool.and_false]
  rfl

/-- Under a route ending in a `PageHandle` with a falsy default export,
`processFile` fails with the missing-default error. -/
theorem processFile_page_missing_default
    (dir rel : String) (load : String → LoadResult) (router : Router)
    (segs : List Segment) (ext : Extension) (m : JsModule)
    (hroute : extractRoute rel = RouteResult.route segs)
    (hlast : segs.getLast? = some (Segment.PageHandle ext))
    (hload : load (joinPath dir rel) = LoadResult.loaded m)
    (hdef : truthy (m.get ("default")) = false) :
    processFile dir load router rel =
      Except.error (BuildError.InvalidModuleError
        ("Missing default export in " ++ joinPath dir rel ++ " for +page.tsx")) := by
  unfold processFile
  rw [hroute]
  simp only [hlast, hload, hdef, Segment.isPage, Bool.not_false, Bool.and_true]
  rfl

/-- When the dynamic import of a route file fails, `processFile` fails with an
`ImportError` carrying the cause verbatim and the absolute file path. -/
theorem processFile_import_error
    (dir rel : String) (load : String → LoadResult) (router : Router)
    (segs : List Segment) (cause : JsValue)
    (hroute : extractRoute rel = RouteResult.route segs)
    (hload : load (joinPath dir rel) = LoadResult.failed cause) :
    processFile dir load router rel =
      Except.error (BuildError.ImportError cause (joinPath dir rel)) := by
  obtain ⟨-, -, last, hlast, -⟩ := extractRoute_route_inv hroute
  unfold processFile
  rw [hroute]
  simp only [hlast, hload]

/-! ## Claim theorems: the route builder -/

/-- C1: for a `ServerHandle` module, every valid method export (callable or
bearing a callable `pipe`) is registered as a method-specific entry on the
route's pattern; if at least one was registered the default export is ignored
(only the method entries are added); if none was registered and the default
export is a valid handler it is registered as a catch-all entry; if neither
exists the build fails with an `InvalidModuleError` whose message contains
"No valid route handlers" and the offending file path. -/
theorem server_handle_registration
    (dir rel : String) (load : String → LoadResult) (router : Router)
    (segs : List Segment) (ext : Extension) (m : JsModule)
    (hroute : extractRoute rel = RouteResult.route segs)
    (hlast : segs.getLast? = some (Segment.ServerHandle ext))
    (hload : load (joinPath dir rel) = LoadResult.loaded m) :
    (validMethods m ≠ [] →
      processFile dir load router rel =
        Except.ok (router ++ methodEntries m (segmentsToPath segs.dropLast))) ∧
    (validMethods m = [] → isValidHandler (m.get ("default")) = true →
      processFile dir load router rel =
        Except.ok (router ++ [RouteEntry.catchAll (segmentsToPath segs.dropLast)
          (Handler.js (m.get ("default")))])) ∧
    (validMethods m = [] → isValidHandler (m.get ("default")) = false →
      processFile dir load router rel =
        Except.error (BuildError.InvalidModuleError
          ("No valid route handlers (method-specific functions or default export) found in "
            ++ joinPath dir rel))) := by
  rw [processFile_eq_handleServer dir rel load router segs ext m hroute hlast hload]
  unfold handleServerModule
  rw [registerMethodHandlers_eq]
  refine ⟨?_, ?_, ?_⟩
  · intro hne
    have hemp : (validMethods m).isEmpty = false := by
      simpa [List.isEmpty_iff] using hne
    simp [hemp]
  · intro hnil hdef
    have hemp : (validMethods m).isEmpty = true := by simp [List.isEmpty_iff, hnil]
    simp [hemp, hdef, methodEntries, hnil]
  · intro hnil hdef
    have hemp : (validMethods m).isEmpty = true := by simp [List.isEmpty_iff, hnil]
    simp [hemp, hdef]


/-- Witness for C1 at a concrete module with one valid GET export. -/
theorem server_handle_registration_witness :
    extractRoute ("api/+server.ts") =
      RouteResult.route [Segment.Literal ("api"), Segment.ServerHandle Extension.ts] ∧
    validMethods serverModGET ≠ [] ∧
    processFile ("/routes") loadServerGET [] ("api/+server.ts") =
      Except.ok [RouteEntry.forMethod Method.GET ("/api")
        (Handler.js (JsValue.funcRet JsValue.undefined))] :=
  ⟨by decide, by decide,
    by
      have h := (server_handle_registration ("/routes") ("api/+server.ts") loadServerGET
        [] [Segment.Literal ("api"), Segment.ServerHandle Extension.ts] Extension.ts
        serverModGET (by decide) (by decide) (by decide)).1 (by decide)
      exact h⟩


/-- C10 counterexample: when the module's only method export is invalid and a
valid default exists, the build succeeds by registering the default as a
catch-all — an entry that *does* serve the ignored method — so a request with
the ignored method receives the default handler, not the "no route" outcome
the claim asserts. -/
theorem ignored_method_served_by_catchall :
    isValidHandler (badMethodModule.get ("GET")) = false ∧
    processFile ("/routes") loadBadMethod [] ("+server.ts") =
      Except.ok [RouteEntry.catchAll ("/") (Handler.js (JsValue.obj true))] ∧
    dispatch [RouteEntry.catchAll ("/") (Handler.js (JsValue.obj true))]
      Method.GET ("/") = some (Handler.js (JsValue.obj true)) :=
  ⟨by decide, rfl, by decide⟩

/-- C10 (amended): a method export that fails the duck-typed handler check is
silently ignored — provided at least one *other* method export is valid, the
build succeeds, the result contains no entry for the ignored method, and
requests with the ignored method receive the "no route" outcome.  (When the
module instead falls back to a valid default export, the catch-all entry
serves the ignored method too, as the counterexample shows.) -/
theorem invalid_method_export_ignored
    (dir rel : String) (load : String → LoadResult)
    (segs : List Segment) (ext : Extension) (m : JsModule) (meth : Method)
    (hroute : extractRoute rel = RouteResult.route segs)
    (hlast : segs.getLast? = some (Segment.ServerHandle ext))
    (hload : load (joinPath dir rel) = LoadResult.loaded m)
    (hbad : isValidHandler (m.get (methodName meth)) = false)
    (hother : validMethods m ≠ []) :
    processFile dir load [] rel =
      Except.ok (methodEntries m (segmentsToPath segs.dropLast)) ∧
    (∀ e ∈ methodEntries m (segmentsToPath segs.dropLast),
      ∃ meth' pat hdl, e = RouteEntry.forMethod meth' pat hdl ∧ meth' ≠ meth) ∧
    (∀ reqPath, dispatch (methodEntries m (segmentsToPath segs.dropLast))
      meth reqPath = none) := by
  have hne : ∀ meth' : Method, meth' ∈ validMethods m → meth' ≠ meth := by
    intro meth' hmem hEq
    subst hEq
    unfold validMethods at hmem
    rw [List.mem_filter] at hmem
    rw [hmem.2] at hbad
    cases hbad
  refine ⟨?_, ?_, ?_⟩
  · rw [processFile_eq_handleServer dir rel load [] segs ext m hroute hlast hload]
    unfold handleServerModule
    rw [registerMethodHandlers_eq]
    have hemp : (validMethods m).isEmpty = false := by
      simpa [List.isEmpty_iff] using hother
    simp [hemp]
  · intro e he
    unfold methodEntries at he
    rw [List.mem_map] at he
    obtain ⟨meth', hmem, rfl⟩ := he
    exact ⟨meth', _, _, rfl, hne meth' hmem⟩
  · intro reqPath
    unfold dispatch
    have hfind : (methodEntries m (segmentsToPath segs.dropLast)).find?
        (entryMatches meth reqPath) = none := by
      rw [List.find?_eq_none]
      intro e he
      unfold methodEntries at he
      rw [List.mem_map] at he
      obtain ⟨meth', hmem, rfl⟩ := he
      simp [entryMatches, hne meth' hmem]
    rw [hfind]
    rfl


/-- Witness for the amended C10 theorem at the repository's test module. -/
theorem invalid_method_export_ignored_witness :
    isValidHandler (badMethodPostModule.get ("GET")) = false ∧
    validMethods badMethodPostModule ≠ [] ∧
    processFile ("/routes") loadBadMethodPost [] ("api/badmethod/+server.ts") =
      Except.ok [RouteEntry.forMethod Method.POST ("/api/badmethod")
        (Handler.js (JsValue.obj true))] ∧
    dispatch [RouteEntry.forMethod Method.POST ("/api/badmethod")
      (Handler.js (JsValue.obj true))] Method.GET ("/api/badmethod") = none :=
  ⟨by decide, by decide,
    by
      have h := invalid_method_export_ignored ("/routes") ("api/badmethod/+server.ts")
        loadBadMethodPost [Segment.Literal ("api"), Segment.Literal ("badmethod"),
          Segment.ServerHandle Extension.ts] Extension.ts badMethodPostModule Method.GET
        (by decide) (by decide) (by decide) (by decide) (by decide)
      exact h.1,
    by
      have h := invalid_method_export_ignored ("/routes") ("api/badmethod/+server.ts")
        loadBadMethodPost [Segment.Literal ("api"), Segment.Literal ("badmethod"),
          Segment.ServerHandle Extension.ts] Extension.ts badMethodPostModule Method.GET
        (by decide) (by decide) (by decide) (by decide) (by decide)
      exact h.2.2 ("/api/badmethod")⟩


/-- C3 counterexample: the missing-default check uses JS truthiness
(`!module.default`), so a default export that *is* a string — the empty
string — fails the build with the missing-default `InvalidModuleError`,
contradicting both "the build succeeds for every string s, including the
empty string" and "the error is raised only when the default export is
absent". -/
theorem page_empty_string_default_fails :
    emptyPageModule.get ("default") = JsValue.strv ("") ∧
    processFile ("/routes") loadEmptyPage [] ("+page.ts") =
      Except.error (BuildError.InvalidModuleError
        ("Missing default export in /routes/+page.ts for +page.tsx")) :=
  ⟨by decide, rfl⟩

/-- C3 (amended): for a `PageHandle` module whose default export is a
*non-empty* string `s`, the build registers a GET-only entry whose handler is
the plain-text success response carrying `s`; a falsy default export — absent,
or present but the empty string (or any other falsy value) — fails with the
missing-default `InvalidModuleError` naming the file path. -/
theorem page_string_default_registration
    (dir rel : String) (load : String → LoadResult) (router : Router)
    (segs : List Segment) (ext : Extension) (m : JsModule) (s : String)
    (hroute : extractRoute rel = RouteResult.route segs)
    (hlast : segs.getLast? = some (Segment.PageHandle ext))
    (hload : load (joinPath dir rel) = LoadResult.loaded m) :
    (m.get ("default") = JsValue.strv s → s ≠ "" →
      processFile dir load router rel =
        Except.ok (router ++ [RouteEntry.forMethod Method.GET
          (segmentsToPath segs.dropLast) (Handler.page (textResponse s))])) ∧
    (truthy (m.get ("default")) = false →
      processFile dir load router rel =
        Except.error (BuildError.InvalidModuleError
          ("Missing default export in " ++ joinPath dir rel ++ " for +page.tsx"))) := by
  constructor
  · intro hdef hs
    have htr : truthy (m.get ("default")) = true := by
      rw [hdef]
      exact decide_eq_true hs
    rw [processFile_eq_handlePage dir rel load router segs ext m hroute hlast hload htr]
    unfold handlePageModule
    rw [hdef]
  · intro hfalsy
    exact processFile_page_missing_default dir rel load router segs ext m
      hroute hlast hload hfalsy


/-- Witness for the amended C3 theorem at the repository's root-page test. -/
theorem page_string_default_registration_witness :
    helloPageModule.get ("default") = JsValue.strv ("Hello Root") ∧
    ("Hello Root" : String) ≠ "" ∧
    processFile ("/routes") loadHelloPage [] ("+page.tsx") =
      Except.ok [RouteEntry.forMethod Method.GET ("/")
        (Handler.page { status := 200, contentType := "text/plain",
                        body := "Hello Root" })] :=
  ⟨by decide, by decide,
    (page_string_default_registration ("/routes") ("+page.tsx") loadHelloPage []
      [Segment.PageHandle Extension.tsx] Extension.tsx helloPageModule ("Hello Root")
      (by decide) (by decide) (by decide)).1 (by decide) (by decide)⟩

/-- C4: for a `PageHandle` module whose default export is callable, the
builder invokes it with no arguments; a raising invocation fails the build
with an `InvalidModuleError` that wraps the rendered execution failure and
names the file path (the underlying error does not propagate: the outcome is
an `InvalidModuleError`, not the thrown value); a non-string result fails the
build with an `InvalidModuleError` containing "did not return a string" and
the file path. -/
theorem page_function_default_errors
    (dir rel : String) (load : String → LoadResult) (router : Router)
    (segs : List Segment) (ext : Extension) (m : JsModule)
    (hroute : extractRoute rel = RouteResult.route segs)
    (hlast : segs.getLast? = some (Segment.PageHandle ext))
    (hload : load (joinPath dir rel) = LoadResult.loaded m) :
    (∀ msg, m.get ("default") = JsValue.funcThrow msg →
      processFile dir load router rel =
        Except.error (BuildError.InvalidModuleError
          ("Error executing default export function in " ++ joinPath dir rel
            ++ " for +page.tsx: " ++ msg))) ∧
    (∀ v, m.get ("default") = JsValue.funcRet v → isStringValue v = false →
      processFile dir load router rel =
        Except.error (BuildError.InvalidModuleError
          ("Default export function in " ++ joinPath dir rel
            ++ " for +page.tsx did not return a string."))) := by
  constructor
  · intro msg hdef
    have htr : truthy (m.get ("default")) = true := by rw [hdef]; rfl
    rw [processFile_eq_handlePage dir rel load router segs ext m hroute hlast hload htr]
    unfold handlePageModule
    rw [hdef]
  · intro v hdef hv
    have htr : truthy (m.get ("default")) = true := by rw [hdef]; rfl
    rw [processFile_eq_handlePage dir rel load router segs ext m hroute hlast hload htr]
    unfold handlePageModule
    rw [hdef]
    cases v
    case strv s => simp [isStringValue] at hv
    all_goals rfl


/-- Witness for C4 at the repository's non-string-returning page module. -/
theorem page_function_default_errors_witness :
    badPageModule.get ("default") = JsValue.funcRet (JsValue.obj false) ∧
    isStringValue (JsValue.obj false) = false ∧
    processFile ("/routes") loadBadPage [] ("badtype/+page.tsx") =
      Except.error (BuildError.InvalidModuleError
        ("Default export function in /routes/badtype/+page.tsx for +page.tsx did not return a string.")) :=
  ⟨by decide, by decide,
    (page_function_default_errors ("/routes") ("badtype/+page.tsx") loadBadPage []
      [Segment.Literal ("badtype"), Segment.PageHandle Extension.tsx] Extension.tsx
      badPageModule (by decide) (by decide) (by decide)).2 (JsValue.obj false)
      (by decide) (by decide)⟩

/-- C9: when the dynamic import of a route file fails, the build fails with an
`ImportError` carrying the underlying cause value verbatim and the file's
absolute path, and the error is fatal to the whole build: whatever files
follow, no router value is returned. -/
theorem import_failure_fatal
    (dir rel : String) (load : String → LoadResult) (cause : JsValue)
    (before after : List String) (r' : Router) (segs : List Segment)
    (hbefore : fromFiles dir load before = Except.ok r')
    (hroute : extractRoute rel = RouteResult.route segs)
    (hload : load (joinPath dir rel) = LoadResult.failed cause) :
    fromFiles dir load (before ++ rel :: after) =
      Except.error (BuildError.ImportError cause (joinPath dir rel)) := by
  unfold fromFiles at hbefore ⊢
  rw [except_foldlM_append, hbefore]
  show List.foldlM (processFile dir load) r' (rel :: after) = _
  rw [except_foldlM_cons,
    processFile_import_error dir rel load r' segs cause hroute hload]
  rfl

/-- The classifier rejects every component of the optional-rest form
`[[...x]]`: the optional branch falls through because the inner text starts
with three dots, and no later branch matches a token that still begins with a
bracket. -/
theorem classify_optRest_none (x : List Char) :
    classifySegment (optRestForm x) = none := by
  have hinner : optionalInner (optRestForm x) = '.' :: '.' :: '.' :: x := by
    show ((optRestForm x).drop 2).dropLast.dropLast = _
    have e1 : (optRestForm x).drop 2 = ('.' :: '.' :: '.' :: x) ++ (']' :: [']']) := by
      simp [optRestForm]
    rw [e1, List.dropLast_append_cons]
    show (('.' :: '.' :: '.' :: x) ++ (']' :: [])).dropLast = _
    rw [List.dropLast_append_cons]
    simp
  have h1 : startsWithChar ('+') (optRestForm x) = false := rfl
  have h2 : startsWithDots (optionalInner (optRestForm x)) = true := by
    rw [hinner]; rfl
  have h3 : restRegexMatch (optRestForm x) = false := rfl
  have h4 : dynRegexMatch (optRestForm x) = false := rfl
  have h5 : isWordString (optRestForm x) = false := rfl
  simp only [classifySegment, h1, h2, h3, h4, h5, Bool.not_true, Bool.and_false,
    Bool.false_eq_true, if_false]

/-- C7: every path containing a component of the optional-rest form `[[...x]]`
is rejected as a whole (here proved for *every* inner text `x`, the non-empty
ones of the claim included), and the empty-name bracket tokens `[[]]`, `[...]`
and `[]` are never classified as any segment. -/
theorem optional_rest_rejection :
    (∀ (x : List Char), classifySegment (optRestForm x) = none) ∧
    classifySegment (("[[]]").data) = none ∧
    classifySegment (("[...]").data) = none ∧
    classifySegment (("[]").data) = none ∧
    (∀ (path : String) (x : List Char), optRestForm x ∈ componentStrings path →
      extractSegments path = none) :=
  ⟨classify_optRest_none, by decide, by decide, by decide,
    fun path x hmem =>
      extractSegments_none_of_bad_component hmem (classify_optRest_none x)⟩

/-- Witness for C7 at the repository's test input `/[[...invalid]]`. -/
theorem optional_rest_rejection_witness :
    classifySegment (optRestForm (("invalid").data)) = none ∧
    optRestForm (("invalid").data) ∈ componentStrings ("/[[...invalid]]") ∧
    extractSegments ("/[[...invalid]]") = none :=
  ⟨optional_rest_rejection.1 (("invalid").data),
    by decide,
    optional_rest_rejection.2.2.2.2 ("/[[...invalid]]") (("invalid").data) (by decide)⟩


/-- Witness for C9: a failing import aborts the build even with further files
pending. -/
theorem import_failure_fatal_witness :
    fromFiles ("/routes") loadBroken [] = Except.ok [] ∧
    extractRoute ("broken/+server.ts") = RouteResult.route
      [Segment.Literal ("broken"), Segment.ServerHandle Extension.ts] ∧
    loadBroken ("/routes/broken/+server.ts") =
      LoadResult.failed (JsValue.strv ("SyntaxError")) ∧
    fromFiles ("/routes") loadBroken (["broken/+server.ts", "after/+page.ts"]) =
      Except.error (BuildError.ImportError (JsValue.strv ("SyntaxError"))
        ("/routes/broken/+server.ts")) :=
  ⟨rfl, by decide, by decide,
    import_failure_fatal ("/routes") ("broken/+server.ts") loadBroken
      (JsValue.strv ("SyntaxError")) [] (["after/+page.ts"]) []
      [Segment.Literal ("broken"), Segment.ServerHandle Extension.ts]
      rfl (by decide) (by decide)⟩

end FileRouter
